import Mathlib

/-!
Verification development for the ska-ser-scpi protocol stack.

This file gives a shallow embedding of the marshalling / unmarshalling
pipeline of the library: the attribute <-> SCPI field engine
(attribute_client.py, scpi_server.py), the SCPI text codec
(scpi_client.py), the payload containers (attribute_payload.py,
scpi_payload.py) and the sentinel byte framer (bytes_client.py).

Python conventions are modelled explicitly:

* Python dicts are association lists with insert-or-overwrite-in-place
  semantics (insertion order preserved, last write wins).
* Python `str` and `bytes` values are kept distinct (`PyVal`), because
  the code mixes them: operations that raise `AttributeError` or
  `TypeError` in Python when applied to the wrong variant are modelled
  as errors.
* Fallible code returns `Except PyErr`.
* Python floats are modelled as rationals; `str(float)` is modelled as
  exact decimal rendering, which agrees with Python for the terminating
  decimals used in this development.
-/

/-- Python exception outcomes relevant to the modelled code paths. -/
inductive PyErr where
  | keyError (key : String)
  | indexError
  | valueError (msg : String)
  | attributeError (msg : String)
  | typeError (msg : String)
  | timeoutError
  | osError (msg : String)
  | stopIteration
deriving DecidableEq, Inhabited

/-- Decidable equality for `Except`, so that concrete evaluations can be
settled by `decide`. -/
instance instDecEqExcept {ε α : Type} [DecidableEq ε] [DecidableEq α] :
    DecidableEq (Except ε α)
  | .ok x, .ok y =>
    if h : x = y then isTrue (h ▸ rfl) else isFalse (fun he => h (Except.ok.inj he))
  | .error x, .error y =>
    if h : x = y then isTrue (h ▸ rfl) else isFalse (fun he => h (Except.error.inj he))
  | .ok _, .error _ => isFalse (fun he => Except.noConfusion he)
  | .error _, .ok _ => isFalse (fun he => Except.noConfusion he)

/-- A Python value that is either a `str` or a `bytes` object.  The byte
content is represented as a `String` (all bytes exercised by the claims
are ASCII). -/
inductive PyVal where
  | pstr (s : String)
  | pbytes (s : String)
deriving DecidableEq, Inhabited

/-- A device-independent attribute value (`SupportedAttributeType` plus
the decoded-block and raw cases produced by the client unmarshaller). -/
inductive AttrValue where
  | b (x : Bool)
  | i (n : Int)
  | f (q : Rat)
  | s (v : String)
  | raw (v : PyVal)
  | block (dtype : String) (data : String)
deriving DecidableEq, Inhabited

/-- Python truthiness of an attribute value. -/
def truthy : AttrValue → Bool
  | .b x => x
  | .i n => n != 0
  | .f q => q != 0
  | .s v => v != ""
  | .raw (.pstr v) => v != ""
  | .raw (.pbytes v) => v != ""
  | .block _ data => data != ""

/-- Insert-or-overwrite into a Python dict modelled as an association
list: an existing key keeps its position, a new key is appended. -/
def dictInsert {κ α : Type} [DecidableEq κ] (k : κ) (v : α) : List (κ × α) → List (κ × α)
  | [] => [(k, v)]
  | (k0, v0) :: rest => if k0 = k then (k, v) :: rest else (k0, v0) :: dictInsert k v rest

/-- Dict lookup. -/
def dictGet? {κ α : Type} [DecidableEq κ] (k : κ) : List (κ × α) → Option α
  | [] => none
  | (k0, v0) :: rest => if k0 = k then some v0 else dictGet? k rest

/-- Dict membership test (`k in d`). -/
def dictMem {κ α : Type} [DecidableEq κ] (k : κ) (d : List (κ × α)) : Bool :=
  (dictGet? k d).isSome

/-- Lift an `Option` into `Except`, raising the given Python error when
the value is missing. -/
def exceptOfOption {α : Type} (e : PyErr) : Option α → Except PyErr α
  | some a => .ok a
  | none => .error e

/-- Python whitespace characters handled by `str.strip()`. -/
def isPySpace (c : Char) : Bool :=
  c = ' ' || c = '\t' || c = '\n' || c = '\r' || c = '\x0b' || c = '\x0c'

/-- Python `str.strip()`. -/
def pyStrip (s : String) : String :=
  String.mk (((s.toList.dropWhile isPySpace).reverse.dropWhile isPySpace).reverse)

/-- Decimal digit run to a natural number; `none` when empty or when a
non-digit occurs. -/
def digitsToNat? (cs : List Char) : Option Nat :=
  if cs ≠ [] ∧ cs.all Char.isDigit then
    some (cs.foldl (fun a c => a * 10 + (c.toNat - 48)) 0)
  else none

/-- Python `int(x)` on decimal text (optional sign, surrounding
whitespace stripped).  Underscores and other bases are outside the
modelled domain. -/
def parseIntPy (s : String) : Except PyErr Int :=
  let cs := (pyStrip s).toList
  match cs with
  | '-' :: rest =>
    match digitsToNat? rest with
    | some n => .ok (-(n : Int))
    | none => .error (.valueError ("invalid literal for int: " ++ s))
  | '+' :: rest =>
    match digitsToNat? rest with
    | some n => .ok (n : Int)
    | none => .error (.valueError ("invalid literal for int: " ++ s))
  | _ =>
    match digitsToNat? cs with
    | some n => .ok (n : Int)
    | none => .error (.valueError ("invalid literal for int: " ++ s))

/-- Python `float(x)` on plain decimal text (optional sign, optional
decimal point).  Exponent and special forms are outside the modelled
domain; the result is the exact rational value of the decimal. -/
def parseFloatPy (s : String) : Except PyErr Rat :=
  let t := pyStrip s
  let (sgn, body) :=
    if t.startsWith "-" then ((-1 : Rat), t.drop 1)
    else if t.startsWith "+" then ((1 : Rat), t.drop 1)
    else ((1 : Rat), t)
  match body.splitOn "." with
  | [a] =>
    match digitsToNat? a.toList with
    | some n => .ok (sgn * n)
    | none => .error (.valueError ("could not convert string to float: " ++ s))
  | [a, b] =>
    if (a.toList.all Char.isDigit) ∧ (b.toList.all Char.isDigit) ∧ (a ≠ "" ∨ b ≠ "") then
      let intPart := (a.toList.foldl (fun acc c => acc * 10 + (c.toNat - 48)) 0 : Nat)
      let fracPart := (b.toList.foldl (fun acc c => acc * 10 + (c.toNat - 48)) 0 : Nat)
      .ok (sgn * ((intPart : Rat) + (fracPart : Rat) / ((10 : Rat) ^ b.length)))
    else .error (.valueError ("could not convert string to float: " ++ s))
  | _ => .error (.valueError ("could not convert string to float: " ++ s))

/-- Smallest exponent `k` (bounded search) with `den ∣ 10 ^ k`. -/
def pow10ExpGo (den k : Nat) : Nat → Option Nat
  | 0 => none
  | fuel + 1 => if 10 ^ k % den = 0 then some k else pow10ExpGo den (k + 1) fuel

/-- Modelled `str(float)`: exact decimal rendering with at least one
fractional digit, agreeing with Python for terminating decimals
(for example `str(0.1) = "0.1"`, `str(30.0) = "30.0"`). -/
def ratDecimalStr (q : Rat) : String :=
  match pow10ExpGo q.den 0 40 with
  | none => "<nonterminating-decimal>"
  | some k0 =>
    let k := max k0 1
    let scaled := q.num.natAbs * 10 ^ k / q.den
    let ds := Nat.repr scaled
    let ds := if ds.length ≤ k then String.mk (List.replicate (k + 1 - ds.length) '0') ++ ds else ds
    (if q.num < 0 then "-" else "") ++ ds.take (ds.length - k) ++ "." ++ ds.drop (ds.length - k)

/-- Python `str(value)` for attribute values.  The `raw` and `block`
cases are never rendered by any claim; they are given plain renderings. -/
def strOfValue : AttrValue → String
  | .b x => if x then "True" else "False"
  | .i n => toString n
  | .f q => ratDecimalStr q
  | .s v => v
  | .raw (.pstr v) => v
  | .raw (.pbytes v) => v
  | .block _ data => data

/-! ## Payload containers (scpi_payload.py, attribute_payload.py) -/

/-- `ScpiRequest`: ordered duplicate-free query field set plus an
ordered setop list (field name, string argument list). -/
structure ScpiRequest where
  queries : List String := []
  setops : List (String × List String) := []
deriving DecidableEq, Inhabited

/-- `ScpiRequest.add_query`: dict-as-set insertion. -/
def ScpiRequest.addQuery (r : ScpiRequest) (field : String) : ScpiRequest :=
  if field ∈ r.queries then r else { r with queries := r.queries ++ [field] }

/-- Replace the first setop with the given field name (the `for ... break`
scan of `ScpiRequest.add_setop` with `replace=True`). -/
def replaceFirstSetop (field : String) (args : List String) :
    List (String × List String) → List (String × List String)
  | [] => []
  | (g, a) :: rest =>
    if g = field then (field, args) :: rest else (g, a) :: replaceFirstSetop field args rest

/-- `ScpiRequest.add_setop`: append, or replace the first setop for the
same field when `replace` is set (appending when none exists). -/
def ScpiRequest.addSetop (r : ScpiRequest) (field : String) (args : List String)
    (replace : Bool) : ScpiRequest :=
  if replace then
    if r.setops.any (fun p => p.1 = field) then
      { r with setops := replaceFirstSetop field args r.setops }
    else { r with setops := r.setops ++ [(field, args)] }
  else { r with setops := r.setops ++ [(field, args)] }

/-- First setop argument list recorded for a field (the scan in
`AttributeClient._marshall_request`). -/
def findSetopArgs (field : String) : List (String × List String) → Option (List String)
  | [] => none
  | (g, a) :: rest => if g = field then some a else findSetopArgs field rest

/-- `ScpiResponse`: field name to raw value, one per queried field. -/
structure ScpiResponse where
  responses : List (String × PyVal) := []
deriving DecidableEq, Inhabited

/-- `AttributeRequest`: ordered duplicate-free query set plus an ordered
setop multiset (attribute name, positional argument tuple). -/
structure AttributeRequest where
  queries : List String := []
  setops : List (String × List AttrValue) := []
deriving DecidableEq, Inhabited

/-- `AttributeRequest.set_queries`: clear then insert each name into the
dict-as-set (duplicates keep their first position). -/
def AttributeRequest.setQueries (r : AttributeRequest) (qs : List String) : AttributeRequest :=
  { r with queries := qs.foldl (fun acc q => if q ∈ acc then acc else acc ++ [q]) [] }

/-- `AttributeRequest.add_setop`. -/
def AttributeRequest.addSetop (r : AttributeRequest) (attrName : String)
    (args : List AttrValue) : AttributeRequest :=
  { r with setops := r.setops ++ [(attrName, args)] }

/-- `AttributeResponse`: attribute name to typed value, last write wins. -/
structure AttributeResponse where
  responses : List (String × AttrValue) := []
deriving DecidableEq, Inhabited

/-- `AttributeResponse.add_query_response`. -/
def AttributeResponse.addQueryResponse (r : AttributeResponse) (attrName : String)
    (value : AttrValue) : AttributeResponse :=
  { r with responses := dictInsert attrName value r.responses }

/-! ### Counter-based comparison of attribute requests
(`collections.Counter(list).items()` and Python set comparisons). -/

/-- Occurrence count of an element in a list. -/
def countOcc {α : Type} [DecidableEq α] (x : α) : List α → Nat
  | [] => 0
  | y :: ys => (if y = x then 1 else 0) + countOcc x ys

/-- Duplicate removal keeping first occurrences (the key order of a
Python `Counter`). -/
def pyDedupGo {α : Type} [DecidableEq α] : Nat → List α → List α
  | 0, _ => []
  | fuel + 1, l =>
    match l with
    | [] => []
    | x :: xs => x :: pyDedupGo fuel (xs.filter (fun y => decide (y ≠ x)))

/-- Duplicate removal keeping first occurrences; the fuel `l.length`
makes `pyDedupGo` exact. -/
def pyDedup {α : Type} [DecidableEq α] (l : List α) : List α :=
  pyDedupGo l.length l

/-- `Counter(l).items()`: each distinct element paired with its count. -/
def counterItems {α : Type} [DecidableEq α] (l : List α) : List (α × Nat) :=
  (pyDedup l).map (fun x => (x, countOcc x l))

/-- Python set-equality of two lists (`set(a) == set(b)`, also the
semantics of `dict_items.__eq__`). -/
def listSetEqv {α : Type} [DecidableEq α] (a b : List α) : Bool :=
  a.all (fun x => decide (x ∈ b)) && b.all (fun x => decide (x ∈ a))

/-- `AttributeRequest.__eq__`: `Counter(setops).items()` equality (a
set comparison of (setop, count) pairs) and query-set equality. -/
def attrReqEq (a b : AttributeRequest) : Bool :=
  listSetEqv (counterItems a.setops) (counterItems b.setops) && listSetEqv a.queries b.queries

/-- `AttributeRequest.__ge__`: `Counter(self.setops).items() >=
Counter(other.setops).items()` (dict-items superset, i.e. every
(setop, count) pair of `b` occurs with the identical count in `a`)
and `set(self.queries) >= set(other.queries)`. -/
def attrReqGe (a b : AttributeRequest) : Bool :=
  (counterItems b.setops).all (fun p => decide (p ∈ counterItems a.setops))
    && b.queries.all (fun q => decide (q ∈ a.queries))

/-! ## Python arbitrary-precision int bitwise operations
(kernel-computable two˗s-complement semantics via `Nat.land`/`Nat.lor`). -/

/-- Python `~a`. -/
def pyIntNot (a : Int) : Int := -(a + 1)

/-- `m AND NOT n` on naturals (bitwise difference). -/
def natLdiff (m n : Nat) : Nat := m - Nat.land m n

/-- Python `a & b` on arbitrary-precision integers. -/
def pyIntAnd (a b : Int) : Int :=
  if 0 ≤ a then
    if 0 ≤ b then Int.ofNat (Nat.land a.toNat b.toNat)
    else Int.ofNat (natLdiff a.toNat (-(b + 1)).toNat)
  else
    if 0 ≤ b then Int.ofNat (natLdiff b.toNat (-(a + 1)).toNat)
    else -(Int.ofNat (Nat.lor (-(a + 1)).toNat (-(b + 1)).toNat) + 1)

/-- Python `a | b` on arbitrary-precision integers. -/
def pyIntOr (a b : Int) : Int :=
  if 0 ≤ a then
    if 0 ≤ b then Int.ofNat (Nat.lor a.toNat b.toNat)
    else -(Int.ofNat (natLdiff (-(b + 1)).toNat a.toNat) + 1)
  else
    if 0 ≤ b then -(Int.ofNat (natLdiff (-(a + 1)).toNat b.toNat) + 1)
    else -(Int.ofNat (Nat.land (-(a + 1)).toNat (-(b + 1)).toNat) + 1)

/-! ## Attribute definitions and field maps
(interface_definition.AttributeDefinitionType and the `_field_map`
structures built by AttributeClient.__init__ / ScpiServer.__init__). -/

/-- One attribute definition dictionary: `field` is required; the other
keys are optional (`field_type`, `bit`, `packet_item`,
`block_data_type`). -/
structure AttrDef where
  field : String
  field_type : Option String := none
  bit : Option Nat := none
  packet_item : Option Nat := none
  block_data_type : Option String := none
deriving DecidableEq, Inhabited

/-- The attribute-definition set: attribute name to (method name to
definition), methods being `"read"` / `"write"`, in insertion order. -/
abbrev AttrDefs : Type := List (String × List (String × AttrDef))

/-- `_FieldDefinitionType`: one field-map entry.  The source dictionary
key `attribute` is spelled `attrName` here (`attribute` is reserved in
Lean); `attributes` is the bit/packet index-to-attribute dictionary. -/
structure FieldEntry where
  field_type : Option String := none
  block_data_type : Option String := none
  attrName : Option String := none
  attributes : Option (List (Nat × String)) := none
deriving DecidableEq, Inhabited

/-- Field map: field name to (method name to entry). -/
abbrev FieldMap : Type := List (String × List (String × FieldEntry))

/-- One step of `AttributeClient.__init__` field-map construction, for a
single (attribute, method, definition) triple. -/
def clientFieldStep (fm : FieldMap) (attrName method : String) (dm : AttrDef) :
    Except PyErr FieldMap := do
  let field := dm.field
  let fm : FieldMap := if dictMem field fm then fm else dictInsert field [] fm
  match dm.field_type with
  | some t =>
    if t = "bit" ∨ t = "packet_item" then do
      let idx ← exceptOfOption (.keyError t) (if t = "bit" then dm.bit else dm.packet_item)
      let entryMap := (dictGet? field fm).getD []
      let entryMap :=
        if dictMem method entryMap then entryMap
        else dictInsert method { field_type := some t, attributes := some [] } entryMap
      let entry := (dictGet? method entryMap).getD {}
      match entry.attributes with
      | none => .error (.keyError "attributes")
      | some attrs =>
        let entry := { entry with attributes := some (dictInsert idx attrName attrs) }
        .ok (dictInsert field (dictInsert method entry entryMap) fm)
    else do
      let base : FieldEntry := { field_type := some t, attrName := some attrName }
      let info ←
        if t = "arbitrary_block" then
          match dm.block_data_type with
          | some bdt => Except.ok { base with block_data_type := some bdt }
          | none => Except.error (.keyError "block_data_type")
        else Except.ok base
      .ok (dictInsert field (dictInsert method info ((dictGet? field fm).getD [])) fm)
  | none =>
    .ok (dictInsert field [(method, { attrName := some attrName })] fm)

/-- The field map built by `AttributeClient.__init__`. -/
def clientFieldMap (defs : AttrDefs) : Except PyErr FieldMap :=
  defs.foldlM
    (fun fm p => p.2.foldlM (fun fm2 m => clientFieldStep fm2 p.1 m.1 m.2) fm) []

/-! ## AttributeClient._marshall_request -/

/-- Marshall an attribute request into a SCPI request
(`AttributeClient._marshall_request`).  Queries map to the read field;
setops dispatch on the write field type: `None` emits a bare command,
`"bit"` reads the flag already queued for the field (first match,
default 0), ORs the mask in when `args[0]` is truthy (with
`replace=True`) and AND-NOTs it out otherwise (appended, as in the
source, which passes no `replace` flag on that path); `"bool"` renders
`"1"`/`"0"` by truthiness; any other type renders `str(arg)`. -/
def marshallAttrRequest (defs : AttrDefs) (areq : AttributeRequest) :
    Except PyErr ScpiRequest := do
  let sreq ← areq.queries.foldlM (fun (acc : ScpiRequest) attrName => do
    let definition ← exceptOfOption (.keyError attrName) (dictGet? attrName defs)
    let readDef ← exceptOfOption (.keyError "read") (dictGet? "read" definition)
    Except.ok (acc.addQuery readDef.field)) {}
  areq.setops.foldlM (fun (acc : ScpiRequest) p => do
    let definition ← exceptOfOption (.keyError p.1) (dictGet? p.1 defs)
    let writeDef ← exceptOfOption (.keyError "write") (dictGet? "write" definition)
    let field := writeDef.field
    match writeDef.field_type with
    | none => Except.ok (acc.addSetop field [] false)
    | some t =>
      if t = "bit" then do
        let bit ← exceptOfOption (.keyError "bit") writeDef.bit
        let currentFlag ←
          match findSetopArgs field acc.setops with
          | some theseArgs => do
            let a0 ← exceptOfOption .indexError theseArgs.head?
            parseIntPy a0
          | none => Except.ok (0 : Int)
        let mask : Int := Int.ofNat (Nat.shiftLeft 1 bit)
        let a0 ← exceptOfOption .indexError p.2.head?
        if truthy a0 then
          Except.ok (acc.addSetop field [toString (pyIntOr mask currentFlag)] true)
        else
          Except.ok (acc.addSetop field [toString (pyIntAnd (pyIntNot mask) currentFlag)] false)
      else
        let strArgs :=
          if t = "bool" then p.2.map (fun a => if truthy a then "1" else "0")
          else p.2.map strOfValue
        Except.ok (acc.addSetop field strArgs false)) sreq

/-! ## ScpiClient: text codec, retry loop, send_receive -/

/-- `ScpiClient._marshall_request`: setops render as
`field<sep>arg1<sep>...`, queries as `field?`; with chaining each group
is joined by `;` into one transport unit. -/
def scpiMarshallRequest (chain : Bool) (sep : String) (r : ScpiRequest) :
    List String × List String :=
  let setopUnits := r.setops.map (fun p => String.intercalate sep (p.1 :: p.2))
  let setopUnits :=
    if r.setops.isEmpty then setopUnits
    else if chain then [String.intercalate ";" setopUnits] else setopUnits
  let queryUnits := r.queries.map (fun q => q ++ "?")
  let queryUnits :=
    if r.queries.isEmpty then queryUnits
    else if chain then [String.intercalate ";" queryUnits] else queryUnits
  (setopUnits, queryUnits)

/-- One alternative of the response regex `(?:[^;"]|"[^"]+?")+`: consume
a shortest double-quoted run with non-empty content. -/
def quotedSpan : List Char → Option (List Char × List Char)
  | [] => none
  | c :: rest =>
    if c = '"' then none
    else
      match rest with
      | [] => none
      | d :: rest2 =>
        if d = '"' then some ([c], rest2)
        else (quotedSpan (d :: rest2)).map (fun pr => (c :: pr.1, pr.2))

/-- One step of the token regex: a character that is neither `;` nor
`"`, or a complete quoted run. -/
def tokStep (cs : List Char) : Option (List Char × List Char) :=
  match cs with
  | [] => none
  | c :: rest =>
    if c = ';' then none
    else if c = '"' then
      match quotedSpan rest with
      | some (mid, rest2) => some ('"' :: (mid ++ ['"']), rest2)
      | none => none
    else some ([c], rest)

/-- Greedy repetition of `tokStep` (the `+` of the regex), fuelled. -/
def tokenRun : Nat → List Char → List Char × List Char
  | 0, cs => ([], cs)
  | fuel + 1, cs =>
    match tokStep cs with
    | none => ([], cs)
    | some (tk, rest) =>
      let pr := tokenRun fuel rest
      (tk ++ pr.1, pr.2)

/-- `re.findall` scan of the response regex, fuelled (fuel one more than
the input length makes the scan exact). -/
def tokenizeGo : Nat → List Char → List (List Char)
  | 0, _ => []
  | fuel + 1, cs =>
    match cs with
    | [] => []
    | _ =>
      let pr := tokenRun (fuel + 1) cs
      if pr.1.isEmpty then tokenizeGo fuel cs.tail
      else pr.1 :: tokenizeGo fuel pr.2

/-- Tokenise a response string: split on `;` outside double-quoted
substrings (the `_response_regex` of `ScpiClient`). -/
def tokenizeScpi (s : String) : List String :=
  (tokenizeGo (s.length + 1) s.toList).map String.mk

/-- Python `repr` of a list of strings, as interpolated into the
mismatch error message. -/
def pyReprStrList (xs : List String) : String :=
  "[" ++ String.intercalate ", " (xs.map (fun s => "\x27" ++ s ++ "\x27")) ++ "]"

/-- The `ValueError` message of `ScpiClient._unmarshall_response`,
naming both the unpacked values and the provided fields. -/
def mismatchMsg (values fields : List String) : String :=
  "Mismatch: unpacked " ++ toString values.length ++ " value(s): " ++ pyReprStrList values
    ++ " but " ++ toString fields.length ++ " field(s) were provided: "
    ++ pyReprStrList fields ++ "."

/-- Decode, strip and tokenise the received transport units, in order
(the `values` accumulation of `ScpiClient._unmarshall_response`).  The
decode step produces Python `str` tokens. -/
def collectValues (responses : List String) : List String :=
  responses.foldl
    (fun acc r => let s := pyStrip r; if s = "" then acc else acc ++ tokenizeScpi s) []

/-- Zip tokens positionally onto field names to build the response map. -/
def buildScpiResponse (fields values : List String) : ScpiResponse :=
  { responses := (fields.zip values).foldl
      (fun acc p => dictInsert p.1 (PyVal.pstr p.2) acc) [] }

/-- `ScpiClient._unmarshall_response`: raise `ValueError` on a count
mismatch between tokens and queried fields, else zip them. -/
def scpiUnmarshallResponse (responses fields : List String) : Except PyErr ScpiResponse :=
  let values := collectValues responses
  if values.length ≠ fields.length then .error (.valueError (mismatchMsg values fields))
  else .ok (buildScpiResponse fields values)

/-- Outcome of one transport call (the bytes client). -/
inductive TransportResult where
  | ok (b : String)
  | timeout
  | fail (msg : String)
deriving DecidableEq, Inhabited

/-- The bounded retry loop of `ScpiClient.send_receive`
(`for connection_attempt in range(1, timeout_retries + 2)`), with
`left` the number of further attempts still allowed: a timeout with no
attempts left re-raises; a non-timeout failure propagates immediately;
a success returns.  The second component is the attempt number on
which the loop stopped. -/
def readLoopAux (t : Nat → TransportResult) : Nat → Nat → Except PyErr String × Nat
  | 0, attempt =>
    (match t attempt with
     | .ok b => (.ok b, attempt)
     | .fail m => (.error (.osError m), attempt)
     | .timeout => (.error .timeoutError, attempt))
  | left + 1, attempt =>
    (match t attempt with
     | .ok b => (.ok b, attempt)
     | .fail m => (.error (.osError m), attempt)
     | .timeout => readLoopAux t left (attempt + 1))

/-- The whole per-query retry loop: first attempt is numbered 1 and
`timeout_retries` further attempts are allowed. -/
def readRetry (t : Nat → TransportResult) (retries : Nat) : Except PyErr String × Nat :=
  readLoopAux t retries 1

/-- `ScpiClient.send_receive`: marshall, write setop units (reading and
discarding a response when `return_response` is set), read one response
per query unit under the retry loop, then unmarshall against the
ordered queried fields.  `transport` gives the outcome of sending a
unit on a given attempt number; sends with no response expected are
modelled as fire-and-forget. -/
def scpiSendReceive (transport : String → Nat → TransportResult) (chain : Bool)
    (sep : String) (returnResponse : Bool) (retries : Nat) (sreq : ScpiRequest) :
    Except PyErr ScpiResponse := do
  let fields := sreq.queries
  let (setopUnits, queryUnits) := scpiMarshallRequest chain sep sreq
  let _ ← setopUnits.foldlM (fun (_ : Unit) u =>
    if returnResponse then
      match transport u 1 with
      | .ok _ => Except.ok ()
      | .timeout => Except.error PyErr.timeoutError
      | .fail m => Except.error (PyErr.osError m)
    else Except.ok ()) ()
  let responses ← queryUnits.foldlM
    (fun (acc : List String) u => ((readRetry (transport u) retries).1).map
      (fun b => acc ++ [b])) []
  scpiUnmarshallResponse responses fields

/-! ## AttributeClient._unmarshall_response -/

/-- `field_value.decode("utf-8")`: a `bytes` decodes to its text; a
`str` has no `decode` method and raises `AttributeError`. -/
def pyDecodeUtf8 : PyVal → Except PyErr String
  | .pbytes s => .ok s
  | .pstr _ => .error (.attributeError "\x27str\x27 object has no attribute \x27decode\x27")

/-- `int(field_value)`: both `str` and `bytes` parse as decimal text. -/
def pyValToInt (v : PyVal) : Except PyErr Int :=
  match v with
  | .pstr s => parseIntPy s
  | .pbytes s => parseIntPy s

/-- `float(field_value)`: both `str` and `bytes` parse as decimal text. -/
def pyValToFloat (v : PyVal) : Except PyErr Rat :=
  match v with
  | .pstr s => parseFloatPy s
  | .pbytes s => parseFloatPy s

/-- `field_value == b"1"`: comparing a `str` against `bytes` is `False`
in Python (no error). -/
def pyValEqBytes1 : PyVal → Bool
  | .pstr _ => false
  | .pbytes s => s = "1"

/-- `field_value.startswith(b"#")`: `str.startswith(bytes)` raises
`TypeError`. -/
def pyValStartsHash : PyVal → Except PyErr Bool
  | .pstr _ => .error (.typeError "startswith first arg must be str or a tuple of str, not bytes")
  | .pbytes s => .ok (s.startsWith "#")

/-- The malformed-block-marker message of
`AttributeClient._unmarshall_response`. -/
def malformedBlockMsg (field : String) : String :=
  "Malformed value for arbitrary_block field " ++ field ++ " does not start with \x27#\x27"

/-- The block-length-mismatch message of
`AttributeClient._unmarshall_response`, naming both counts. -/
def blockCountMsg (received expected : Nat) (field : String) : String :=
  "Received " ++ toString received ++ " bytes, expected " ++ toString expected
    ++ " for arbitrary_block field " ++ field

/-- Unmarshall one (field, value) pair of a SCPI response into attribute
responses (`AttributeClient._unmarshall_response` loop body).  The
entry consulted is the first one recorded in the field map for the
field (`list(self._field_map[field].values())[0]`). -/
def attrUnmarshallField (fm : FieldMap) (acc : AttributeResponse)
    (field : String) (fieldValue : PyVal) : Except PyErr AttributeResponse := do
  let entryMap ← exceptOfOption (.keyError field) (dictGet? field fm)
  let definition ← exceptOfOption .indexError (entryMap.head?.map Prod.snd)
  let ftype ← exceptOfOption (.keyError "field_type") definition.field_type
  if ftype = "bit" then do
    let attrs ← exceptOfOption (.keyError "attributes") definition.attributes
    attrs.foldlM (fun (a : AttributeResponse) bp => do
      let n ← pyValToInt fieldValue
      let mask : Int := Int.ofNat (Nat.shiftLeft 1 bp.1)
      Except.ok (a.addQueryResponse bp.2 (.b (pyIntAnd n mask != 0)))) acc
  else if ftype = "packet_item" then do
    let s ← pyDecodeUtf8 fieldValue
    let packet := s.splitOn " "
    let attrs ← exceptOfOption (.keyError "attributes") definition.attributes
    attrs.foldlM (fun (a : AttributeResponse) ip => do
      let tok ← exceptOfOption .indexError (packet.get? ip.1)
      let q ← parseFloatPy tok
      Except.ok (a.addQueryResponse ip.2 (.f q))) acc
  else do
    let attrName ← exceptOfOption (.keyError "attribute") definition.attrName
    let value ←
      if ftype = "bool" then Except.ok (AttrValue.b (pyValEqBytes1 fieldValue))
      else if ftype = "float" then (pyValToFloat fieldValue).map AttrValue.f
      else if ftype = "int" then (pyValToInt fieldValue).map AttrValue.i
      else if ftype = "packet_index" then Except.ok (AttrValue.raw fieldValue)
      else if ftype = "arbitrary_block" then do
        let startsHash ← pyValStartsHash fieldValue
        if !startsHash then Except.error (.valueError (malformedBlockMsg field))
        else do
          let content :=
            match fieldValue with
            | .pbytes s => s
            | .pstr s => s
          let d ← exceptOfOption .indexError ((content.toList.get? 1).map (fun c => c.toNat - 48))
          let lenHead := 2 + d
          let lenData ← exceptOfOption
            (.valueError "invalid literal for int")
            (digitsToNat? ((content.toList.drop 2).take d))
          let dataBytes := content.toList.drop lenHead
          if dataBytes.length ≠ lenData then
            Except.error (.valueError (blockCountMsg dataBytes.length lenData field))
          else do
            let dtype ← exceptOfOption (.keyError "block_data_type") definition.block_data_type
            -- np.frombuffer element decoding is kept as the raw payload
            -- tagged with its dtype: no claim observes the element values.
            Except.ok (AttrValue.block dtype (String.mk dataBytes))
      else (pyDecodeUtf8 fieldValue).map AttrValue.s
    Except.ok (acc.addQueryResponse attrName value)

/-- `AttributeClient._unmarshall_response`: fold over the response
fields in insertion order. -/
def attrUnmarshallResponse (fm : FieldMap) (sresp : ScpiResponse) :
    Except PyErr AttributeResponse :=
  sresp.responses.foldlM (fun acc p => attrUnmarshallField fm acc p.1 p.2) {}

/-- `AttributeClient.send_receive` over the whole client stack: build
the field map, marshall the attribute request, run the SCPI client
round trip, unmarshall the SCPI response. -/
def attributeSendReceive (defs : AttrDefs) (transport : String → Nat → TransportResult)
    (chain : Bool) (sep : String) (returnResponse : Bool) (retries : Nat)
    (areq : AttributeRequest) : Except PyErr AttributeResponse := do
  let fm ← clientFieldMap defs
  let sreq ← marshallAttrRequest defs areq
  let sresp ← scpiSendReceive transport chain sep returnResponse retries sreq
  attrUnmarshallResponse fm sresp

/-! ## Byte framer (_JimmiedSentinelBytesMarshaller.unmarshall) -/

/-- Python `payload.endswith(sentinel)` on byte lists. -/
def listEndsWith (sentinel buf : List Nat) : Bool :=
  decide (sentinel = buf.drop (buf.length - sentinel.length))

/-- Python `payload.removesuffix(sentinel)`. -/
def removeSuffix (sentinel buf : List Nat) : List Nat :=
  if listEndsWith sentinel buf then buf.take (buf.length - sentinel.length) else buf

/-- Does the first chunk match `^#\d\d+` (a `#`, one digit, then at
least one more digit)? -/
def blockHeaderMatch : List Nat → Bool
  | a :: b :: c :: _ => a = 35 && (48 ≤ b && b ≤ 57) && (48 ≤ c && c ≤ 57)
  | _ => false

/-- Python `int` of a run of ASCII digit bytes; an empty or non-digit
run raises `ValueError` (the surrounding-whitespace and sign leniency
of Python `int` is outside the modelled domain: the regexp guard only
ever produces digit runs here). -/
def bytesToNat (bs : List Nat) : Except PyErr Nat :=
  if bs ≠ [] ∧ bs.all (fun b => 48 ≤ b ∧ b ≤ 57) then
    .ok (bs.foldl (fun a b => a * 10 + (b - 48)) 0)
  else .error (.valueError "invalid literal for int")

/-- The accumulation loop
`while len(payload) < len_expected or not payload.endswith(sentinel)`:
append chunks until the buffer is at least the expected length and ends
with the sentinel; `none` when the chunk stream is exhausted first
(`StopIteration`). -/
def gatherLoop (sentinel : List Nat) (expected : Nat) :
    List Nat → List (List Nat) → Option (List Nat)
  | buf, chunks =>
    if expected ≤ buf.length ∧ listEndsWith sentinel buf = true then some buf
    else
      match chunks with
      | [] => none
      | c :: rest => gatherLoop sentinel expected (buf ++ c) rest

/-- The naive accumulation loop
`while not payload.endswith(sentinel)` of the fallback branch. -/
def gatherNaive (sentinel : List Nat) : List Nat → List (List Nat) → Option (List Nat)
  | buf, chunks =>
    if listEndsWith sentinel buf = true then some buf
    else
      match chunks with
      | [] => none
      | c :: rest => gatherNaive sentinel (buf ++ c) rest

/-- The framing-error message of the byte framer, naming the observed
and the declared payload sizes. -/
def blockLenMsg (received declared : Nat) : String :=
  "Malformed IEEE 488.2 Definite Length Arbitrary Block Data: received "
    ++ toString received ++ " bytes but header stated " ++ toString declared ++ " bytes"

/-- `_JimmiedSentinelBytesMarshaller.unmarshall`: read the first chunk;
when it matches the arbitrary-block header pattern, parse the declared
payload length, accumulate until the expected total length is reached
and the buffer ends with the sentinel, raise `ValueError` when the
buffer overshoots the declared total, else strip the sentinel.  A
non-matching first chunk falls back to the naive sentinel scan. -/
def unmarshallBytes (sentinel : List Nat) (chunks : List (List Nat)) :
    Except PyErr (List Nat) :=
  match chunks with
  | [] => .error .stopIteration
  | first :: rest =>
    if blockHeaderMatch first then
      let d := first.getD 1 0 - 48
      let lenHead := 2 + d
      match bytesToNat ((first.drop 2).take d) with
      | .error e => .error e
      | .ok lenData =>
        let lenExpected := lenHead + lenData + sentinel.length
        match gatherLoop sentinel lenExpected first rest with
        | none => .error .stopIteration
        | some payload =>
          if payload.length > lenExpected then
            .error (.valueError
              (blockLenMsg (payload.length - lenHead - sentinel.length) lenData))
          else .ok (removeSuffix sentinel payload)
    else
      match gatherNaive sentinel first rest with
      | none => .error .stopIteration
      | some payload => .ok (removeSuffix sentinel payload)

/-! ## ScpiServer -/

/-- One step of `ScpiServer.__init__` field-map construction: `bit`
definitions aggregate under a `"bits"` entry; every other typed
definition overwrites the per-method entry; an untyped definition
replaces the whole per-field dictionary. -/
def serverFieldStep (fm : FieldMap) (attrName method : String) (dm : AttrDef) :
    Except PyErr FieldMap := do
  let field := dm.field
  let fm : FieldMap := if dictMem field fm then fm else dictInsert field [] fm
  match dm.field_type with
  | some t =>
    if t = "bit" then do
      let bit ← exceptOfOption (.keyError "bit") dm.bit
      let entryMap := (dictGet? field fm).getD []
      let entryMap :=
        if dictMem method entryMap then entryMap
        else dictInsert method { field_type := some "bits", attributes := some [] } entryMap
      let entry := (dictGet? method entryMap).getD {}
      match entry.attributes with
      | none => .error (.keyError "attributes")
      | some attrs =>
        let entry := { entry with attributes := some (dictInsert bit attrName attrs) }
        .ok (dictInsert field (dictInsert method entry entryMap) fm)
    else
      .ok (dictInsert field
        (dictInsert method { field_type := some t, attrName := some attrName }
          ((dictGet? field fm).getD [])) fm)
  | none =>
    .ok (dictInsert field [(method, { attrName := some attrName })] fm)

/-- The field map built by `ScpiServer.__init__`. -/
def serverFieldMap (defs : AttrDefs) : Except PyErr FieldMap :=
  defs.foldlM
    (fun fm p => p.2.foldlM (fun fm2 m => serverFieldStep fm2 p.1 m.1 m.2) fm) []

/-- The unknown-field-type message of `ScpiServer._unmarshall_request`. -/
def cannotUnmarshallMsg (field ftype : String) : String :=
  "Cannot unmarshall SCPI field " ++ field ++ " to attribute type " ++ ftype ++ "."

/-- `ScpiServer._unmarshall_request`: queried fields with no field-map
entry are skipped; a `"bits"` read entry expands to all registered bit
attributes, any other read entry contributes its single attribute (a
read entry with a missing `field_type` key raises `KeyError`, uncaught in the
source).  Setop fields with no entry or no write entry are skipped;
`"bits"` write entries expand the integer argument into one boolean
setop per registered bit; scalar types coerce their arguments; an
unrecognised type raises `ValueError` naming the field and type. -/
def serverUnmarshallRequest (fm : FieldMap) (sreq : ScpiRequest) :
    Except PyErr AttributeRequest := do
  let queries ← sreq.queries.foldlM (fun (acc : List String) field => do
    match dictGet? field fm with
    | none => Except.ok acc
    | some definition => do
      let readEntry ← exceptOfOption (.keyError "read") (dictGet? "read" definition)
      let ftype ← exceptOfOption (.keyError "field_type") readEntry.field_type
      if ftype = "bits" then do
        let attrs ← exceptOfOption (.keyError "attributes") readEntry.attributes
        Except.ok (acc ++ attrs.map Prod.snd)
      else do
        let attrName ← exceptOfOption (.keyError "attribute") readEntry.attrName
        Except.ok (acc ++ [attrName])) []
  let areq := AttributeRequest.setQueries {} queries
  sreq.setops.foldlM (fun (acc : AttributeRequest) p => do
    match dictGet? p.1 fm with
    | none => Except.ok acc
    | some definition =>
      match dictGet? "write" definition with
      | none => Except.ok acc
      | some writeEntry =>
        match writeEntry.field_type with
        | some "bits" => do
          let a0 ← exceptOfOption .indexError p.2.head?
          let value ← parseIntPy a0
          let attrs ← exceptOfOption (.keyError "attributes") writeEntry.attributes
          Except.ok (attrs.foldl (fun (a : AttributeRequest) bp =>
            let mask : Int := Int.ofNat (Nat.shiftLeft 1 bp.1)
            a.addSetop bp.2 [.b (pyIntAnd value mask != 0)]) acc)
        | ftype => do
          let attrName ← exceptOfOption (.keyError "attribute") writeEntry.attrName
          match ftype with
          | none => Except.ok (acc.addSetop attrName [])
          | some "bool" => Except.ok (acc.addSetop attrName (p.2.map (fun arg => .b (arg = "1"))))
          | some "float" => do
            let vals ← p.2.mapM parseFloatPy
            Except.ok (acc.addSetop attrName (vals.map AttrValue.f))
          | some "int" => do
            let vals ← p.2.mapM parseIntPy
            Except.ok (acc.addSetop attrName (vals.map AttrValue.i))
          | some "str" => Except.ok (acc.addSetop attrName (p.2.map AttrValue.s))
          | some other => Except.error (.valueError (cannotUnmarshallMsg p.1 other))) areq

/-- `ScpiServer._marshall_response`: per attribute, consult the first
definition recorded for it; `bit` values OR their mask into the value
already accumulated for the field (default `"0"`, parsed only when the
attribute value is truthy); `bool` renders `"1"`/`"0"`; every other
type renders `str(value)` (the source has no `packet_item` or
`arbitrary_block` branch). -/
def serverMarshallResponse (defs : AttrDefs) (aresp : AttributeResponse) :
    Except PyErr ScpiResponse :=
  aresp.responses.foldlM (fun (acc : ScpiResponse) p => do
    let definition ← exceptOfOption (.keyError p.1) (dictGet? p.1 defs)
    let firstDef ← exceptOfOption .indexError (definition.head?.map Prod.snd)
    let attrType ← exceptOfOption (.keyError "field_type") firstDef.field_type
    let field := firstDef.field
    if attrType = "bit" then do
      let fv := (dictGet? field acc.responses).getD (PyVal.pstr "0")
      let fv2 ←
        if truthy p.2 then do
          let bit ← exceptOfOption (.keyError "bit") firstDef.bit
          let n ← pyValToInt fv
          let bitmask : Int := Int.ofNat (Nat.shiftLeft 1 bit)
          Except.ok (PyVal.pstr (toString (pyIntOr n bitmask)))
        else Except.ok fv
      Except.ok { responses := dictInsert field fv2 acc.responses }
    else if attrType = "bool" then
      Except.ok { responses :=
        dictInsert field (PyVal.pstr (if truthy p.2 then "1" else "0")) acc.responses }
    else
      Except.ok { responses :=
        dictInsert field (PyVal.pstr (strOfValue p.2)) acc.responses }) {}

/-- `ScpiServer.receive_send`: unmarshall the request, delegate to the
injected attribute handler, marshall its response; only a `ValueError`
from the handler is caught (logged and `None` returned); handler
failures of any other kind and marshalling failures propagate. -/
def serverReceiveSend (defs : AttrDefs)
    (handler : AttributeRequest → Except PyErr AttributeResponse)
    (sreq : ScpiRequest) : Except PyErr (Option ScpiResponse) := do
  let fm ← serverFieldMap defs
  let areq ← serverUnmarshallRequest fm sreq
  match handler areq with
  | .error (.valueError _) => .ok none
  | .error e => .error e
  | .ok aresp => (serverMarshallResponse defs aresp).map some

/-! ## Concrete fixtures (the expanded fruit interface definition of the
unit tests, and a minimal packet-item definition set). -/

/-- The fruit attribute definitions of the client-stack scenario, with
`read_write` bindings already expanded into `read` and `write`. -/
def fruitDefs : AttrDefs :=
  [ ("name", [("read", { field := "NAME", field_type := some "str" })]),
    ("juiciness",
      [("read", { field := "JUIC", field_type := some "float" }),
       ("write", { field := "JUIC", field_type := some "float" })]),
    ("peeled",
      [("read", { field := "PEEL", field_type := some "bool" }),
       ("write", { field := "PEEL", field_type := some "bool" })]),
    ("overripe",
      [("read", { field := "FLAGS", field_type := some "bit", bit := some 0 }),
       ("write", { field := "FLAGS", field_type := some "bit", bit := some 0 })]),
    ("under-ripe",
      [("read", { field := "FLAGS", field_type := some "bit", bit := some 1 }),
       ("write", { field := "FLAGS", field_type := some "bit", bit := some 1 })]),
    ("chilled",
      [("read", { field := "FLAGS", field_type := some "bit", bit := some 7 }),
       ("write", { field := "FLAGS", field_type := some "bit", bit := some 7 })]) ]

/-- The end-to-end client request: query name, juiciness, peeled,
overripe and under-ripe; set peeled and chilled true. -/
def c1Request : AttributeRequest :=
  { queries := ["name", "juiciness", "peeled", "overripe", "under-ripe"],
    setops := [("peeled", [.b true]), ("chilled", [.b true])] }

/-- The transport of the end-to-end scenario: every read returns the
bytes `orange;98.7;1;130`. -/
def c1Transport : String → Nat → TransportResult :=
  fun _ _ => .ok "orange;98.7;1;130"

/-- Minimal definition set with two `packet_item` attributes sharing the
`PROCESS` read field (as in the server-stack test fixture). -/
def processDefs : AttrDefs :=
  [ ("boiled",
      [("read", { field := "PROCESS", field_type := some "packet_item", packet_item := some 0 }),
       ("write", { field := "BOIL", field_type := some "float" })]),
    ("fried",
      [("read", { field := "PROCESS", field_type := some "packet_item", packet_item := some 1 }),
       ("write", { field := "FRY", field_type := some "float" })]) ]

/-! ## Claim theorems -/

/-- C1: in the end-to-end client scenario (fruit definitions, chaining
enabled), the stack does transmit the setop unit `PEEL 1;FLAGS 128` and
the query unit `NAME?;JUIC?;PEEL?;FLAGS?`; but given the transport
response `orange;98.7;1;130`, `AttributeClient.send_receive` does not
return the claimed attribute response: the SCPI client decodes the
response tokens to `str` while the attribute unmarshaller applies
bytes-only operations, so the call raises `AttributeError` on the
`str`-typed NAME value. -/
theorem c1_client_stack_eval :
    (marshallAttrRequest fruitDefs c1Request).map (scpiMarshallRequest true " ")
      = .ok (["PEEL 1;FLAGS 128"], ["NAME?;JUIC?;PEEL?;FLAGS?"])
    ∧ attributeSendReceive fruitDefs c1Transport true " " false 2 c1Request
      = .error (.attributeError "\x27str\x27 object has no attribute \x27decode\x27") := by
  constructor
  · decide
  · decide

/-- C2: clearing a bit does not use replace semantics: marshalling the
setops `overripe:=True, overripe:=False` (both on bit 0 of FLAGS)
produces two setops for FLAGS (`["1"]` then `["0"]`), not the single
collapsed setop the claim requires — the falsy branch of
`AttributeClient._marshall_request` appends without `replace=True`. -/
theorem c2_bit_clear_appends :
    (marshallAttrRequest fruitDefs
      { setops := [("overripe", [.b true]), ("overripe", [.b false])] }).map ScpiRequest.setops
      = .ok [("FLAGS", ["1"]), ("FLAGS", ["0"])] := by
  decide

/-- C3 counterexample: setting true the two boolean attributes bound to
bits 0 and 7 of FLAGS does not produce a setop with argument `"130"`:
the marshalled request is `[("FLAGS", ["129"])]`. -/
theorem c3_counterexample :
    (marshallAttrRequest fruitDefs
      { setops := [("overripe", [.b true]), ("chilled", [.b true])] }).map ScpiRequest.setops
      ≠ .ok [("FLAGS", ["130"])] := by
  decide

/-- C3 amended: setting true the two boolean attributes bound to bits 0
and 7 of the same SCPI field produces exactly one setop for that field,
whose single string argument is `"129"` (binary 10000001). -/
theorem c3_bits_0_7_pack :
    (marshallAttrRequest fruitDefs
      { setops := [("overripe", [.b true]), ("chilled", [.b true])] }).map ScpiRequest.setops
      = .ok [("FLAGS", ["129"])] := by
  decide

/-- C7: the queries-only round trip does not always reproduce or subsume
the original query set: with two `packet_item` attributes sharing the
PROCESS read field, marshalling `{boiled, fried}` to SCPI and
unmarshalling through a server built from the same definitions yields
the query set `{fried}` only (the server field map keeps just the last
registered packet_item attribute per field). -/
theorem c7_roundtrip_eval :
    ((marshallAttrRequest processDefs { queries := ["boiled", "fried"] }).bind
      (fun sreq => (serverFieldMap processDefs).bind
        (fun fm => serverUnmarshallRequest fm sreq))).map AttributeRequest.queries
      = .ok ["fried"] := by
  decide

/-- C8: server-side marshalling of two `packet_item` attribute values on
the same field does not append them space-separated: the generic
`str()` branch overwrites, leaving only the last value (`"0.2"`), and
no `arbitrary_block` branch exists in `ScpiServer._marshall_response`. -/
theorem c8_packet_item_overwrites :
    (serverMarshallResponse processDefs
      { responses := [("boiled", .f (mkRat 1 10)), ("fried", .f (mkRat 1 5))] }).map
        ScpiResponse.responses
      = .ok [("PROCESS", .pstr "0.2")] := by
  decide

/-- C4: SCPI response unmarshalling fails with a `ValueError` naming
both the decoded token list and the queried field list exactly when the
token count differs from the queried-field count, and zips tokens
positionally onto the ordered field names otherwise. -/
theorem c4_token_count_mismatch (responses fields : List String) :
    ((collectValues responses).length ≠ fields.length →
      scpiUnmarshallResponse responses fields
        = .error (.valueError (mismatchMsg (collectValues responses) fields)))
    ∧ ((collectValues responses).length = fields.length →
      scpiUnmarshallResponse responses fields
        = .ok (buildScpiResponse fields (collectValues responses))) := by
  unfold scpiUnmarshallResponse
  constructor
  · intro h
    simp [h]
  · intro h
    simp [h]

/-- C4 witness: the response `"1;2"` tokenises to two values, so
unmarshalling it against three queried fields fails with the mismatch
reported, while against two fields it zips positionally. -/
theorem c4_witness :
    scpiUnmarshallResponse ["1;2"] ["F1", "F2", "F3"]
      = .error (.valueError (mismatchMsg (collectValues ["1;2"]) ["F1", "F2", "F3"]))
    ∧ scpiUnmarshallResponse ["1;2"] ["F1", "F2"]
      = .ok (buildScpiResponse ["F1", "F2"] (collectValues ["1;2"])) :=
  ⟨(c4_token_count_mismatch ["1;2"] ["F1", "F2", "F3"]).1 (by decide),
   (c4_token_count_mismatch ["1;2"] ["F1", "F2"]).2 (by decide)⟩

/-- C10: when request unmarshalling succeeds, a `ValueError` raised by
the injected attribute handler is caught and `ScpiServer.receive_send`
returns `None` instead of a SCPI response; when the handler returns an
attribute response, `receive_send` returns the SCPI response marshalled
from it. -/
theorem c10_handler_valueerror (defs : AttrDefs)
    (handler : AttributeRequest → Except PyErr AttributeResponse)
    (sreq : ScpiRequest) (fm : FieldMap) (areq : AttributeRequest)
    (h1 : serverFieldMap defs = .ok fm)
    (h2 : serverUnmarshallRequest fm sreq = .ok areq) :
    (∀ m, handler areq = .error (.valueError m) →
      serverReceiveSend defs handler sreq = .ok none)
    ∧ (∀ aresp sresp, handler areq = .ok aresp →
        serverMarshallResponse defs aresp = .ok sresp →
        serverReceiveSend defs handler sreq = .ok (some sresp)) := by
  constructor
  · intro m hm
    simp [serverReceiveSend, Bind.bind, Except.bind, h1, h2, hm]
  · intro aresp sresp ha hmar
    simp [serverReceiveSend, Bind.bind, Except.bind, Except.map, h1, h2, ha, hmar]

/-- C10 witness: with the empty definition set, a handler raising
`ValueError` makes `receive_send` return `None`, and a handler
returning the empty attribute response makes it return the marshalled
(empty) SCPI response. -/
theorem c10_witness :
    serverReceiveSend [] (fun _ => .error (.valueError "boom")) {} = .ok none
    ∧ serverReceiveSend [] (fun _ => .ok {}) {} = .ok (some {}) :=
  ⟨(c10_handler_valueerror [] (fun _ => .error (.valueError "boom")) {} [] {}
      (by decide) (by decide)).1 "boom" rfl,
   (c10_handler_valueerror [] (fun _ => .ok {}) {} [] {}
      (by decide) (by decide)).2 {} {} rfl (by decide)⟩

/-- The attempt number at which the retry loop stops never exceeds the
starting attempt number plus the remaining allowance. -/
theorem readLoopAux_attempt_le (t : Nat → TransportResult) :
    ∀ left attempt, (readLoopAux t left attempt).2 ≤ attempt + left := by
  intro left
  induction left with
  | zero =>
    intro attempt
    simp only [readLoopAux]
    cases t attempt <;> simp
  | succ n ih =>
    intro attempt
    simp only [readLoopAux]
    cases t attempt with
    | ok b => simp
    | timeout =>
      calc (readLoopAux t n (attempt + 1)).2 ≤ (attempt + 1) + n := ih (attempt + 1)
        _ = attempt + (n + 1) := by omega
    | fail m => simp

/-- When every attempt before `j` times out and `j` is within the
allowance, the retry loop stops at attempt `j` with the outcome of
attempt `j` (success returned, non-timeout failure propagated). -/
theorem readLoopAux_first_outcome (t : Nat → TransportResult) :
    ∀ left attempt j, attempt ≤ j → j ≤ attempt + left →
      (∀ k, attempt ≤ k → k < j → t k = .timeout) →
      ((∀ b, t j = .ok b → readLoopAux t left attempt = (.ok b, j))
        ∧ (∀ m, t j = .fail m → readLoopAux t left attempt = (.error (.osError m), j))) := by
  intro left
  induction left with
  | zero =>
    intro attempt j h1 h2 _
    have hj : j = attempt := by omega
    subst hj
    constructor
    · intro b hb
      simp [readLoopAux, hb]
    · intro m hm
      simp [readLoopAux, hm]
  | succ n ih =>
    intro attempt j h1 h2 hto
    by_cases hj : j = attempt
    · subst hj
      constructor
      · intro b hb
        simp [readLoopAux, hb]
      · intro m hm
        simp [readLoopAux, hm]
    · have hlt : attempt < j := lt_of_le_of_ne h1 (Ne.symm hj)
      have hta : t attempt = .timeout := hto attempt le_rfl hlt
      have hrec := ih (attempt + 1) j hlt (by omega)
        (fun k hk1 hk2 => hto k (by omega) hk2)
      constructor
      · intro b hb
        simpa [readLoopAux, hta] using hrec.1 b hb
      · intro m hm
        simpa [readLoopAux, hta] using hrec.2 m hm

/-- When every attempt in the allowance times out, the retry loop
exhausts its allowance and re-raises the timeout on the last attempt. -/
theorem readLoopAux_all_timeout (t : Nat → TransportResult) :
    ∀ left attempt, (∀ k, attempt ≤ k → k ≤ attempt + left → t k = .timeout) →
      readLoopAux t left attempt = (.error .timeoutError, attempt + left) := by
  intro left
  induction left with
  | zero =>
    intro attempt h
    simp [readLoopAux, h attempt le_rfl (by omega)]
  | succ n ih =>
    intro attempt h
    have hta : t attempt = .timeout := h attempt le_rfl (by omega)
    have hrec := ih (attempt + 1) (fun k hk1 hk2 => h k (by omega) (by omega))
    simp only [readLoopAux, hta, hrec]
    congr 1
    omega

/-- C6: each query read in `ScpiClient.send_receive` is attempted at
most `timeout_retries + 1` times; the first non-timeout outcome within
that allowance decides the call (a success is returned, a non-timeout
transport error propagates immediately at its first occurrence); and
only when every allowed attempt times out is the timeout propagated,
after exactly `timeout_retries + 1` attempts. -/
theorem c6_retry_policy (t : Nat → TransportResult) (retries : Nat) :
    (readRetry t retries).2 ≤ retries + 1
    ∧ (∀ j b, 1 ≤ j → j ≤ retries + 1 → (∀ k, 1 ≤ k → k < j → t k = .timeout) →
        t j = .ok b → readRetry t retries = (.ok b, j))
    ∧ (∀ j m, 1 ≤ j → j ≤ retries + 1 → (∀ k, 1 ≤ k → k < j → t k = .timeout) →
        t j = .fail m → readRetry t retries = (.error (.osError m), j))
    ∧ ((∀ k, 1 ≤ k → k ≤ retries + 1 → t k = .timeout) →
        readRetry t retries = (.error .timeoutError, retries + 1)) := by
  refine ⟨?_, ?_, ?_, ?_⟩
  · have := readLoopAux_attempt_le t retries 1
    simpa [readRetry, Nat.add_comm] using this
  · intro j b h1 h2 hto hj
    exact (readLoopAux_first_outcome t retries 1 j h1 (by omega) hto).1 b hj
  · intro j m h1 h2 hto hj
    exact (readLoopAux_first_outcome t retries 1 j h1 (by omega) hto).2 m hj
  · intro h
    have := readLoopAux_all_timeout t retries 1 (fun k hk1 hk2 => h k hk1 (by omega))
    simpa [readRetry, Nat.add_comm] using this

/-- C6 witness: with one retry allowed, a timeout followed by a success
returns the success on attempt 2; all-timeouts propagates the timeout
after attempt 2; a timeout followed by a non-timeout transport error
propagates that error on attempt 2. -/
theorem c6_witness :
    readRetry (fun k => if k = 1 then .timeout else .ok "A") 1 = (.ok "A", 2)
    ∧ readRetry (fun _ => .timeout) 1 = (.error .timeoutError, 2)
    ∧ readRetry (fun k => if k = 1 then .timeout else .fail "oops") 1
        = (.error (.osError "oops"), 2) := by
  refine ⟨?_, ?_, ?_⟩
  · exact (c6_retry_policy (fun k => if k = 1 then .timeout else .ok "A") 1).2.1 2 "A"
      (by omega) (by omega)
      (fun k hk1 hk2 => by have hk : k = 1 := (by omega); simp [hk]) rfl
  · exact (c6_retry_policy (fun _ => .timeout) 1).2.2.2 (fun k _ _ => rfl)
  · exact (c6_retry_policy (fun k => if k = 1 then .timeout else .fail "oops") 1).2.2.1 2 "oops"
      (by omega) (by omega)
      (fun k hk1 hk2 => by have hk : k = 1 := (by omega); simp [hk]) rfl

/-- A buffer returned by the accumulation loop has reached the expected
length and ends with the sentinel. -/
theorem gatherLoop_some_spec (sentinel : List Nat) (expected : Nat) :
    ∀ chunks buf out, gatherLoop sentinel expected buf chunks = some out →
      expected ≤ out.length ∧ listEndsWith sentinel out = true := by
  intro chunks
  induction chunks with
  | nil =>
    intro buf out h
    simp only [gatherLoop] at h
    split at h
    · cases h
      assumption
    · cases h
  | cons c rest ih =>
    intro buf out h
    simp only [gatherLoop] at h
    split at h
    · cases h
      assumption
    · exact ih (buf ++ c) out h

/-- C5: for a chunk stream whose first chunk carries a complete
arbitrary-block header (`#`, digit `d`, then the `d`-digit payload
length `N`), the framer accumulates chunks until the buffer reaches at
least `header + N + sentinel` bytes and ends with the sentinel; a
buffer of exactly the expected total (even one whose payload bytes
contain the sentinel) is returned minus the trailing sentinel, and a
longer buffer raises the framing `ValueError` naming the observed and
the declared payload sizes. -/
theorem c5_framer (sentinel first : List Nat) (rest : List (List Nat)) (d N : Nat)
    (hmatch : blockHeaderMatch first = true)
    (hd : first.getD 1 0 - 48 = d)
    (hparse : bytesToNat ((first.drop 2).take d) = .ok N) :
    ∀ buf, gatherLoop sentinel ((2 + d) + N + sentinel.length) first rest = some buf →
      (((2 + d) + N + sentinel.length ≤ buf.length ∧ listEndsWith sentinel buf = true)
       ∧ (buf.length = (2 + d) + N + sentinel.length →
           unmarshallBytes sentinel (first :: rest) = .ok (removeSuffix sentinel buf))
       ∧ ((2 + d) + N + sentinel.length < buf.length →
           unmarshallBytes sentinel (first :: rest)
             = .error (.valueError
                 (blockLenMsg (buf.length - (2 + d) - sentinel.length) N)))) := by
  intro buf hg
  have hprops := gatherLoop_some_spec sentinel ((2 + d) + N + sentinel.length) rest first buf hg
  refine ⟨hprops, ?_, ?_⟩
  · intro heq
    simp only [unmarshallBytes, hmatch, if_pos, hd, hparse, hg]
    have : ¬ (buf.length > 2 + d + N + sentinel.length) := by omega
    simp [this]
  · intro hgt
    simp only [unmarshallBytes, hmatch, if_pos, hd, hparse, hg]
    have : buf.length > 2 + d + N + sentinel.length := by omega
    simp [this]

/-- C5 witness: the single chunk `#15ab\r\nc\r\n` (payload of 5 bytes
containing the sentinel `\r\n`) is returned minus the trailing
sentinel; the single chunk `#12abc\r\n` (3 payload bytes where the
header declared 2) raises the framing error naming both sizes. -/
theorem c5_witness :
    unmarshallBytes [13, 10] [[35, 49, 53, 97, 98, 13, 10, 99, 13, 10]]
      = .ok (removeSuffix [13, 10] [35, 49, 53, 97, 98, 13, 10, 99, 13, 10])
    ∧ unmarshallBytes [13, 10] [[35, 49, 50, 97, 98, 99, 13, 10]]
      = .error (.valueError (blockLenMsg 3 2)) := by
  constructor
  · exact (c5_framer [13, 10] [35, 49, 53, 97, 98, 13, 10, 99, 13, 10] [] 1 5
      (by decide) (by decide) (by decide)
      [35, 49, 53, 97, 98, 13, 10, 99, 13, 10] (by decide)).2.1 (by decide)
  · exact (c5_framer [13, 10] [35, 49, 50, 97, 98, 99, 13, 10] [] 1 2
      (by decide) (by decide) (by decide)
      [35, 49, 50, 97, 98, 99, 13, 10] (by decide)).2.2 (by decide)

/-- The subsumption predicate as the claim words it (a refinement
definition following the spec, for comparison against the code's
`attrReqGe`): every setop of `b` occurs in `a` at least as many times,
and the queries of `b` are contained in the queries of `a`. -/
def claimSubsumes (a b : AttributeRequest) : Bool :=
  b.setops.all (fun s => countOcc s b.setops ≤ countOcc s a.setops)
    && b.queries.all (fun q => decide (q ∈ a.queries))

/-- An element has positive count exactly when it is in the list. -/
theorem countOcc_pos {α : Type} [DecidableEq α] (x : α) (l : List α) :
    0 < countOcc x l ↔ x ∈ l := by
  induction l with
  | nil => simp [countOcc]
  | cons y ys ih =>
    simp only [countOcc, List.mem_cons]
    by_cases h : y = x
    · simp [h]
    · have : ¬ x = y := fun he => h he.symm
      simp [h, this, ih]

/-- Fuelled dedup preserves membership when the fuel covers the list. -/
theorem mem_pyDedupGo {α : Type} [DecidableEq α] (x : α) :
    ∀ fuel l, l.length ≤ fuel → (x ∈ pyDedupGo fuel l ↔ x ∈ l) := by
  intro fuel
  induction fuel with
  | zero =>
    intro l h
    have : l = [] := List.eq_nil_of_length_eq_zero (Nat.le_zero.mp h)
    subst this
    simp [pyDedupGo]
  | succ n ih =>
    intro l h
    match l with
    | [] => simp [pyDedupGo]
    | y :: ys =>
      have hlen : (ys.filter (fun z => decide (z ≠ y))).length ≤ n := by
        have h1 := List.length_filter_le (fun z => decide (z ≠ y)) ys
        have h2 : ys.length ≤ n := by simpa using Nat.le_of_succ_le_succ h
        omega
      simp only [pyDedupGo, List.mem_cons, ih _ hlen, List.mem_filter,
        decide_eq_true_iff]
      by_cases hxy : x = y
      · simp [hxy]
      · simp [hxy]

/-- Dedup preserves membership. -/
theorem mem_pyDedup {α : Type} [DecidableEq α] (x : α) (l : List α) :
    x ∈ pyDedup l ↔ x ∈ l :=
  mem_pyDedupGo x l.length l le_rfl

/-- Membership in `Counter(l).items()` is exactly membership in `l`
together with the exact count. -/
theorem mem_counterItems {α : Type} [DecidableEq α] (p : α × Nat) (l : List α) :
    p ∈ counterItems l ↔ p.1 ∈ l ∧ p.2 = countOcc p.1 l := by
  unfold counterItems
  rw [List.mem_map]
  constructor
  · rintro ⟨s, hs, hp⟩
    rw [← hp]
    exact ⟨(mem_pyDedup s l).mp hs, rfl⟩
  · rintro ⟨h1, h2⟩
    refine ⟨p.1, (mem_pyDedup p.1 l).mpr h1, ?_⟩
    cases p with
    | mk s c =>
      simp only at h2
      simp [h2]

/-- C9 counterexample: for `A` with setop `("a", ())` twice and `B` with
the same setop once (both with empty query sets), `A`'s setop multiset
contains `B`'s at least as many times and the query sets are nested,
yet `AttributeRequest.__ge__` returns `False`: `Counter.items()`
comparison demands the exact same count pair, so the claimed
"at least as many times" reading is false on the code. -/
theorem c9_counterexample :
    attrReqGe { setops := [("a", []), ("a", [])] } { setops := [("a", [])] } = false
    ∧ claimSubsumes { setops := [("a", []), ("a", [])] } { setops := [("a", [])] } = true := by
  constructor
  · decide
  · decide

/-- C9 amended: `__eq__` holds iff the setop multisets agree (every
setop has the same multiplicity on both sides) and the query sets are
equal; `__ge__` (subsumption) holds iff every setop occurring in `B`
occurs in `A` with exactly `B`'s multiplicity (dict-items containment
of the (setop, count) pairs) and `A`'s query set contains `B`'s. -/
theorem c9_eq_ge_characterization (a b : AttributeRequest) :
    (attrReqEq a b = true ↔
      ((∀ s, countOcc s a.setops = countOcc s b.setops)
        ∧ (∀ q, q ∈ a.queries ↔ q ∈ b.queries)))
    ∧ (attrReqGe a b = true ↔
      ((∀ s, s ∈ b.setops → countOcc s a.setops = countOcc s b.setops)
        ∧ (∀ q, q ∈ b.queries → q ∈ a.queries))) := by
  constructor
  · unfold attrReqEq listSetEqv
    rw [Bool.and_eq_true, Bool.and_eq_true, Bool.and_eq_true]
    simp only [List.all_eq_true, decide_eq_true_iff]
    constructor
    · rintro ⟨⟨hab, hba⟩, hq1, hq2⟩
      constructor
      · intro s
        by_cases hs : s ∈ a.setops
        · have := hab _ ((mem_counterItems (s, countOcc s a.setops) a.setops).mpr ⟨hs, rfl⟩)
          exact ((mem_counterItems _ _).mp this).2
        · by_cases hs2 : s ∈ b.setops
          · have := hba _ ((mem_counterItems (s, countOcc s b.setops) b.setops).mpr ⟨hs2, rfl⟩)
            exact (((mem_counterItems _ _).mp this).2).symm
          · have h1 : ¬ 0 < countOcc s a.setops := fun hc => hs ((countOcc_pos s _).mp hc)
            have h2 : ¬ 0 < countOcc s b.setops := fun hc => hs2 ((countOcc_pos s _).mp hc)
            omega
      · intro q
        exact ⟨fun hq => hq1 q hq, fun hq => hq2 q hq⟩
    · rintro ⟨hcnt, hq⟩
      refine ⟨⟨?_, ?_⟩, ?_, ?_⟩
      · intro p hp
        obtain ⟨hmem, hc⟩ := (mem_counterItems p a.setops).mp hp
        refine (mem_counterItems p b.setops).mpr ⟨?_, ?_⟩
        · rw [← countOcc_pos, ← hcnt, countOcc_pos]
          exact hmem
        · rw [hc, hcnt]
      · intro p hp
        obtain ⟨hmem, hc⟩ := (mem_counterItems p b.setops).mp hp
        refine (mem_counterItems p a.setops).mpr ⟨?_, ?_⟩
        · rw [← countOcc_pos, hcnt, countOcc_pos]
          exact hmem
        · rw [hc, hcnt]
      · intro q hq2
        exact (hq q).mp hq2
      · intro q hq2
        exact (hq q).mpr hq2
  · unfold attrReqGe
    rw [Bool.and_eq_true]
    simp only [List.all_eq_true, decide_eq_true_iff]
    constructor
    · rintro ⟨h1, h2⟩
      refine ⟨?_, h2⟩
      intro s hs
      have := h1 _ ((mem_counterItems (s, countOcc s b.setops) b.setops).mpr ⟨hs, rfl⟩)
      exact ((mem_counterItems _ _).mp this).2.symm
    · rintro ⟨h1, h2⟩
      refine ⟨?_, h2⟩
      intro p hp
      obtain ⟨hmem, hc⟩ := (mem_counterItems p b.setops).mp hp
      refine (mem_counterItems p a.setops).mpr ⟨?_, ?_⟩
      · rw [← countOcc_pos, h1 p.1 hmem, countOcc_pos]
        exact hmem
      · rw [hc, h1 p.1 hmem]

/-- C9 witness: on concrete requests with a duplicated setop on both
sides and nested query sets, the characterisation applies: `__ge__`
holds because every setop of `B` occurs in `A` with the identical
multiplicity and the query sets are nested. -/
theorem c9_witness :
    attrReqGe { queries := ["x", "y"], setops := [("a", []), ("a", [])] }
      { queries := ["x"], setops := [("a", []), ("a", [])] } = true :=
  ((c9_eq_ge_characterization
      { queries := ["x", "y"], setops := [("a", []), ("a", [])] }
      { queries := ["x"], setops := [("a", []), ("a", [])] }).2).mpr
    (by constructor
        · intro s hs
          rfl
        · intro q hq
          simp only [List.mem_cons, List.mem_singleton] at hq ⊢
          rcases hq with h | h
          · exact Or.inl h
          · cases h)
